import Mathlib

/-!
Verification of the WLAN-CSI MUSIC spectrum pipeline
(`src/music/music-spectrum.py`) against its natural-language specification.

The ingest path (`MusicSpectrum.pollSocket`, lines 29-69) is embedded as an
executable state-transition function on an explicit `PyState`.  Transport
messages are byte lists; complex64 samples are kept as their raw 8-byte
chunks, which is faithful for the structural properties verified here (the
spec itself demands bit-for-bit round-tripping of samples).  Uncaught Python
exceptions are modelled as an `Except.error` outcome carrying the error kind;
the returned state is the object state at the moment the exception escapes
(no field of `MusicSpectrum` has been mutated on any crashing path).

The spectrum path (`MusicSpectrum.updateSpatialSpectrum`, lines 111-136) is
embedded over exact reals/complexes: the covariance einsum, the eigenvalue
argsort (numpy sorts complex values lexicographically by real part then
imaginary part; float components are exactly representable as rationals, so
the sort keys are modelled in `ℚ × ℚ` to keep the sort executable), the
noise-subspace column drop, the pseudo-spectrum norm, and the axis-bound
bookkeeping.
-/

/-- Decode failure kinds for one transport message, mirroring which Python
exception each length defect raises in `pollSocket`:
`structError` = `struct.error` from `struct.unpack("III", msg[:12])` on a
message shorter than 12 bytes (line 43, uncaught);
`bufferError` = `ValueError` from `np.frombuffer` on a payload whose length
is not a multiple of 8 (line 46, uncaught);
`reshapeError` = `ValueError` from `data.reshape(...)` on an element count
inconsistent with the header (line 50, caught at line 51). -/
inductive DecodeErr where
  | structError
  | bufferError
  | reshapeError
deriving DecidableEq, Repr

/-- Uncaught Python exceptions that can escape `pollSocket`:
the two uncaught decode errors, and the `ValueError` raised by
`np.concatenate` (line 61) when the drained frames disagree in their
(channel, sample) dimensions. -/
inductive PyErr where
  | structError
  | bufferError
  | concatError
deriving DecidableEq, Repr

/-- One decoded message: header triple and the payload as a flat row-major
list of 8-byte complex64 chunks, mirroring `data.reshape((n_measurements,
num_channels, samples_per_channel))` at line 50. -/
structure Frame where
  m : ℕ
  c : ℕ
  s : ℕ
  data : List (List ℕ)
deriving DecidableEq, Repr

/-- The committed CSI buffer with its five axes, mirroring
`self.csi = stacked[:, np.newaxis, np.newaxis, :, :]` at line 64:
shape `(m, g, r, a, s)` with the flat row-major sample data. -/
structure Buf where
  m : ℕ
  g : ℕ
  r : ℕ
  a : ℕ
  s : ℕ
  data : List (List ℕ)
deriving DecidableEq, Repr

/-- The fixed angular grid `np.linspace(-np.pi / 2, np.pi / 2, 1800)`
from line 90: 1800 evenly spaced radian values from `-π/2` to `π/2`
inclusive, step `π / 1799`. -/
noncomputable def scanning_angles : Fin 1800 → ℝ :=
  fun k => -(Real.pi / 2) + (k : ℝ) * (Real.pi / 1799)

/-- The steering matrix
`np.exp(-1.0j * np.outer(np.pi * np.sin(self.scanning_angles), np.arange(A)))`
from lines 69 and 91: entry `(k, n)` is `exp(-i · π · sin(angle_k) · n)`. -/
noncomputable def steeringMatrix (A : ℕ) : Fin 1800 → Fin A → ℂ :=
  fun k n => Complex.exp (-Complex.I *
    ((Real.pi * Real.sin (scanning_angles k) * (n : ℝ) : ℝ) : ℂ))

/-- The mutable fields of `MusicSpectrum` touched by the ingest path:
`self.csi` (line 85, `None` until the first commit), `self.antennas_per_row`
(line 86), and `self.steering_vectors` stored together with the antenna
count it was built from (lines 91 and 68-69). -/
structure PyState where
  csi : Option Buf
  antennas_per_row : ℕ
  steering : Σ A : ℕ, Fin 1800 → Fin A → ℂ

/-- Little-endian unsigned 32-bit value of the first four bytes of a list,
as `struct.unpack("III", ...)` reads each header field. -/
def u32 (b : List ℕ) : ℕ :=
  b.getD 0 0 + 256 * b.getD 1 0 + 65536 * b.getD 2 0 + 16777216 * b.getD 3 0

/-- Split a byte list into consecutive 8-byte chunks (one complex64 each),
as `np.frombuffer(msg[12:], dtype=np.complex64)` views the payload.  A
trailing chunk shorter than 8 bytes can only arise when the multiple-of-8
guard has already failed, i.e. never on a path that uses the result. -/
def chunk8 : List ℕ → List (List ℕ)
  | [] => []
  | b0 :: b1 :: b2 :: b3 :: b4 :: b5 :: b6 :: b7 :: rest =>
      [b0, b1, b2, b3, b4, b5, b6, b7] :: chunk8 rest
  | l => [l]

/-- Decode one transport message, mirroring lines 43-52 of `pollSocket` in
source order: read the 12-byte header `(n_measurements, num_channels,
samples_per_channel)` (fewer than 12 bytes: `struct.error`), view the
payload as complex64 (length not a multiple of 8: `ValueError` from
`np.frombuffer`), then reshape to `(m, c, s)` (element count mismatch:
`ValueError` from `reshape`, the only one caught by the code). -/
def decodeMsg (msg : List ℕ) : Except DecodeErr Frame :=
  if msg.length < 12 then .error .structError
  else
    let m := u32 (msg.take 4)
    let c := u32 ((msg.drop 4).take 4)
    let s := u32 ((msg.drop 8).take 4)
    let payload := msg.drop 12
    if payload.length % 8 ≠ 0 then .error .bufferError
    else
      let data := chunk8 payload
      if m * c * s = data.length then .ok ⟨m, c, s, data⟩
      else .error .reshapeError

/-- Outcome of the message loop of lines 41-54: an uncaught exception, the
early `return` at line 52 (which abandons the whole batch), or completion
with the decoded frames and the final value of the loop variable
`num_channels` (read later at line 67). -/
inductive LoopOut where
  | crashed (e : PyErr)
  | earlyReturn
  | done (frames : List Frame) (lastC : ℕ)
deriving DecidableEq, Repr

/-- The message loop of lines 41-54: decode each drained message in order,
appending successes to `all_data`; a caught reshape mismatch executes
`return` (discarding every frame decoded so far), an uncaught exception
propagates. -/
def processMsgs : List (List ℕ) → List Frame → ℕ → LoopOut
  | [], acc, lastC => .done acc lastC
  | msg :: rest, acc, _lastC =>
    match decodeMsg msg with
    | .error .structError => .crashed .structError
    | .error .bufferError => .crashed .bufferError
    | .error .reshapeError => .earlyReturn
    | .ok f => processMsgs rest (acc ++ [f]) f.c

/-- The dimension check `np.concatenate` performs at line 61: every frame
must agree with the first in both non-concatenated axes (channels,
samples). -/
def sameCS (f : Frame) (fs : List Frame) : Bool :=
  fs.all fun fr => fr.c == f.c && fr.s == f.s

/-- The buffer committed at lines 61-64: frames stacked along the
measurement axis, then two singleton axes inserted, giving shape
`(Σ mᵢ, 1, 1, c, s)` over the same flat row-major data. -/
def commitBuf (f : Frame) (fs : List Frame) : Buf :=
  { m := ((f :: fs).map Frame.m).sum
    g := 1
    r := 1
    a := f.c
    s := f.s
    data := ((f :: fs).map Frame.data).flatten }

/-- The full `pollSocket` body after the drain (lines 39-69), as a function
of the drained message batch: process the messages, return early if none
decoded, otherwise concatenate and commit the new `self.csi`, and rebuild
`self.antennas_per_row` / `self.steering_vectors` iff the (common) channel
count of the batch differs from the stored one.  The second component
records whether the call returned normally or an exception escaped. -/
noncomputable def pollSocket (st : PyState) (msgs : List (List ℕ)) :
    PyState × Except PyErr Unit :=
  match processMsgs msgs [] 0 with
  | .crashed e => (st, .error e)
  | .earlyReturn => (st, .ok ())
  | .done [] _ => (st, .ok ())
  | .done (f :: fs) lastC =>
    if sameCS f fs then
      let st1 : PyState := { st with csi := some (commitBuf f fs) }
      if lastC = st.antennas_per_row then (st1, .ok ())
      else (⟨st1.csi, lastC, ⟨lastC, steeringMatrix lastC⟩⟩, .ok ())
    else (st, .error .concatError)

/-- Whether a drained batch makes `pollSocket` reach the commit at line 64
(at least one message decoded, no exception, no early return, and the
concatenation dimension check passes).  This depends only on the batch. -/
def committed (msgs : List (List ℕ)) : Bool :=
  match processMsgs msgs [] 0 with
  | .done (f :: fs) _ => sameCS f fs
  | _ => false

/-- The covariance einsum `np.einsum("dbris,dbrjs->ij", self.csi,
np.conj(self.csi))` at line 117: entry `(i, j)` contracts the measurement,
group, row and subcarrier axes of the buffer against its conjugate, in the
operand's axis order, with no normalization factor. -/
noncomputable def covariance (M G Rw A S : ℕ)
    (csi : Fin M → Fin G → Fin Rw → Fin A → Fin S → ℂ) :
    Fin A → Fin A → ℂ :=
  fun i j => ∑ d, ∑ g, ∑ r, ∑ s,
    csi d g r i s * (starRingEnd ℂ) (csi d g r j s)

/-- Numpy's comparison order on complex values, used by
`np.argsort(eig_val)` at line 123: lexicographic by real part, then by
imaginary part.  The float components are modelled as exact rationals. -/
def npLexLe (x y : ℚ × ℚ) : Prop :=
  x.1 < y.1 ∨ (x.1 = y.1 ∧ x.2 ≤ y.2)

instance : DecidableRel npLexLe := fun x y =>
  inferInstanceAs (Decidable (x.1 < y.1 ∨ (x.1 = y.1 ∧ x.2 ≤ y.2)))

/-- The index list produced by `np.argsort(eig_val)` at line 123: the
indices `0, ..., A-1` stably sorted into ascending numpy complex order of
their eigenvalues. -/
def argsortAsc (A : ℕ) (val : Fin A → ℚ × ℚ) : List (Fin A) :=
  List.insertionSort (fun i j => npLexLe (val i) (val j)) (List.finRange A)

/-- The column order `np.argsort(eig_val)[::-1]` at line 123: the ascending
argsort reversed, so eigenvalues are visited in decreasing numpy complex
order. -/
def eigOrder (A : ℕ) (val : Fin A → ℚ × ℚ) : List (Fin A) :=
  (argsortAsc A val).reverse

/-- The noise subspace `Qn = eig_vec[:,order][:,1:]` at line 126: the
eigenvector columns rearranged into `eigOrder` and the first (the column of
the largest eigenvalue) dropped.  Columns are materialised as lists; the
entries of `eig_vec` are opaque to this step. -/
def noiseColumns (A : ℕ) (val : Fin A → ℚ × ℚ)
    (vec : Fin A → Fin A → ℚ × ℚ) : List (List (ℚ × ℚ)) :=
  ((eigOrder A val).map fun j => List.ofFn fun i => vec i j).drop 1

/-- Modelled from the spec's words for claim C2, for comparison with
`noiseColumns`: sort the eigenpairs by eigenvalue real part in decreasing
order, ties broken by original index, then discard the first column. -/
def specOrderLe (A : ℕ) (val : Fin A → ℚ × ℚ) (i j : Fin A) : Prop :=
  (val j).1 < (val i).1 ∨ ((val i).1 = (val j).1 ∧ i ≤ j)

instance (A : ℕ) (val : Fin A → ℚ × ℚ) : DecidableRel (specOrderLe A val) :=
  fun i j =>
    inferInstanceAs (Decidable ((val j).1 < (val i).1 ∨
      ((val i).1 = (val j).1 ∧ i ≤ j)))

/-- Modelled from the spec's words for claim C2: the claimed noise-subspace
columns, using the real-part sort with original-index tie-breaking. -/
def specNoiseColumns (A : ℕ) (val : Fin A → ℚ × ℚ)
    (vec : Fin A → Fin A → ℚ × ℚ) : List (List (ℚ × ℚ)) :=
  ((List.insertionSort (specOrderLe A val) (List.finRange A)).map
    fun j => List.ofFn fun i => vec i j).drop 1

/-- The projection einsum `np.einsum("ae,ra->er", np.conj(Qn),
self.steering_vectors)` at line 129: entry `(e, r)` is
`Σ_a conj(Qn[a,e]) · steering[r,a]`. -/
noncomputable def spectrumProjection (A E : ℕ) (Qn : Fin A → Fin E → ℂ)
    (steering : Fin 1800 → Fin A → ℂ) : Fin E → Fin 1800 → ℂ :=
  fun e r => ∑ a, (starRingEnd ℂ) (Qn a e) * steering r a

/-- The linear pseudo-spectrum of line 129:
`1 / np.linalg.norm(einsum_result, axis=0)`, the reciprocal of the
column-wise Euclidean norm of the projection matrix. -/
noncomputable def spatial_spectrum_linear (A E : ℕ)
    (Qn : Fin A → Fin E → ℂ) (steering : Fin 1800 → Fin A → ℂ) :
    Fin 1800 → ℝ :=
  fun r => 1 / Real.sqrt (∑ e,
    Complex.abs (spectrumProjection A E Qn steering e r) ^ 2)

/-- The log-scale spectrum of line 130:
`20 * np.log10(spatial_spectrum_linear)`. -/
noncomputable def spatial_spectrum_log (A E : ℕ)
    (Qn : Fin A → Fin E → ℂ) (steering : Fin 1800 → Fin A → ℂ) :
    Fin 1800 → ℝ :=
  fun r => 20 * Real.logb 10 (spatial_spectrum_linear A E Qn steering r)

/-- `np.max` over the 1800-point spectrum, as read at line 133. -/
noncomputable def npMax1800 (p : Fin 1800 → ℝ) : ℝ :=
  Finset.univ.sup' Finset.univ_nonempty p

/-- The axis ceiling after a sequence of refresh ticks, mirroring
`axis.setMax(max(np.max(spatial_spectrum_log), axis.max()))` at line 133:
tick `n` either leaves the bound alone (the `self.csi is None` guard at
line 113) or joins the new spectrum's maximum with the previous bound.
`inp n` is the log-spectrum computed at tick `n`, or `none` when the guard
returns early. -/
noncomputable def axisMaxAfter (inp : ℕ → Option (Fin 1800 → ℝ)) (b0 : ℝ) :
    ℕ → ℝ
  | 0 => b0
  | n + 1 =>
    match inp n with
    | none => axisMaxAfter inp b0 n
    | some p => max (npMax1800 p) (axisMaxAfter inp b0 n)

/-- The `scanningAngles` Qt property of lines 141-143: it returns
`self.scanning_angles.tolist()`, i.e. exactly the radian grid of line 90,
element by element. -/
noncomputable def scanningAnglesProperty : Fin 1800 → ℝ :=
  fun k => scanning_angles k

/-- The x-coordinate `np.rad2deg(angle)` used for the emitted series points
at line 135: the radian grid value scaled by `180 / π`. -/
noncomputable def seriesAngleDeg : Fin 1800 → ℝ :=
  fun k => (180 / Real.pi) * scanning_angles k

/-- Modelled from the spec's words for claim C8: the scanned angle values
expressed in degrees, `np.linspace(-90, 90, 1800)` element-wise. -/
noncomputable def claimedAnglesDeg : Fin 1800 → ℝ :=
  fun k => -90 + (k : ℝ) * (180 / 1799)

/-- The grid index of the last scanned angle. -/
def lastAngleIdx : Fin 1800 := ⟨1799, by norm_num⟩

/-- A well-formed message: header `(1, 2, 1)` and two complex64 samples
(16 payload bytes), so the element count matches the header. -/
def msgGood : List ℕ :=
  [1, 0, 0, 0, 2, 0, 0, 0, 1, 0, 0, 0,
   1, 2, 3, 4, 5, 6, 7, 8, 9, 10, 11, 12, 13, 14, 15, 16]

/-- A message with a consistent byte length but an inconsistent header:
header `(1, 1, 2)` announces two samples, the 8 payload bytes hold one, so
`reshape` raises the caught `ValueError`. -/
def msgBadReshape : List ℕ :=
  [1, 0, 0, 0, 1, 0, 0, 0, 2, 0, 0, 0, 1, 2, 3, 4, 5, 6, 7, 8]

/-- A message shorter than the 12-byte header: `struct.unpack` raises an
uncaught `struct.error`. -/
def msgShort : List ℕ := [1, 0, 0, 0]

/-- A message whose payload length (4 bytes) is not a multiple of 8:
`np.frombuffer` raises an uncaught `ValueError`. -/
def msgOddPayload : List ℕ :=
  [1, 0, 0, 0, 1, 0, 0, 0, 1, 0, 0, 0, 9, 9, 9, 9]

/-- A concrete initial state: no buffer yet, the startup antenna count 2
(line 26 and 86) and the matching startup steering matrix (line 91). -/
noncomputable def stInit : PyState :=
  { csi := none, antennas_per_row := 2, steering := ⟨2, steeringMatrix 2⟩ }

/-- A concrete state holding an already-committed buffer, for the
last-good-value witnesses. -/
noncomputable def stHeld : PyState :=
  { csi := some ⟨1, 1, 1, 2, 1, [[1, 2, 3, 4, 5, 6, 7, 8],
      [9, 10, 11, 12, 13, 14, 15, 16]]⟩
    antennas_per_row := 2
    steering := ⟨2, steeringMatrix 2⟩ }

/-- Concrete eigenvalues for the C2 counterexample: both have real part 2,
with imaginary parts 0 and 1 (floating-point residue on a Hermitian
matrix's eigenvalues). -/
def vEx : Fin 2 → ℚ × ℚ := ![(2, 0), (2, 1)]

/-- Concrete eigenvector matrix for the C2 counterexample: the identity,
so column `j` is the `j`-th standard basis vector and the two columns are
distinguishable. -/
def mEx : Fin 2 → Fin 2 → ℚ × ℚ :=
  fun i j => if i = j then (1, 0) else (0, 0)

theorem npLexLe_refl (x : ℚ × ℚ) : npLexLe x x :=
  Or.inr ⟨rfl, le_refl _⟩

theorem npLexLe_trans {x y z : ℚ × ℚ} (h1 : npLexLe x y) (h2 : npLexLe y z) :
    npLexLe x z := by
  rcases h1 with h1 | ⟨h1e, h1i⟩ <;> rcases h2 with h2 | ⟨h2e, h2i⟩
  · exact Or.inl (lt_trans h1 h2)
  · exact Or.inl (h2e ▸ h1)
  · exact Or.inl (h1e ▸ h2)
  · exact Or.inr ⟨h1e.trans h2e, h1i.trans h2i⟩

theorem npLexLe_total (x y : ℚ × ℚ) : npLexLe x y ∨ npLexLe y x := by
  rcases lt_trichotomy x.1 y.1 with h | h | h
  · exact Or.inl (Or.inl h)
  · rcases le_total x.2 y.2 with h2 | h2
    · exact Or.inl (Or.inr ⟨h, h2⟩)
    · exact Or.inr (Or.inr ⟨h.symm, h2⟩)
  · exact Or.inr (Or.inl h)

theorem npLexLe_re_le {x y : ℚ × ℚ} (h : npLexLe x y) : x.1 ≤ y.1 := by
  rcases h with h | ⟨h, _⟩
  · exact le_of_lt h
  · exact le_of_eq h

theorem pollSocket_state_of_not_committed (st : PyState)
    (msgs : List (List ℕ)) (h : committed msgs = false) :
    (pollSocket st msgs).1 = st := by
  rcases hp : processMsgs msgs [] 0 with e | _ | ⟨fs, lc⟩
  · simp [pollSocket, hp]
  · simp [pollSocket, hp]
  · cases fs with
    | nil => simp [pollSocket, hp]
    | cons f fs =>
      have hcs : sameCS f fs = false := by simpa [committed, hp] using h
      simp [pollSocket, hp, hcs]

theorem processMsgs_earlyReturn (bad : List ℕ) (post : List (List ℕ))
    (h2 : decodeMsg bad = Except.error DecodeErr.reshapeError) :
    ∀ (pre : List (List ℕ)) (acc : List Frame) (lc : ℕ),
      (∀ m ∈ pre, (decodeMsg m).isOk = true) →
      processMsgs (pre ++ bad :: post) acc lc = .earlyReturn := by
  intro pre
  induction pre with
  | nil => intro acc lc _; simp [processMsgs, h2]
  | cons m pre ih =>
    intro acc lc h1
    have hm := h1 m (List.mem_cons_self m pre)
    cases hdm : decodeMsg m with
    | error e =>
      rw [hdm] at hm
      cases e <;> simp [Except.isOk, Except.toBool] at hm
    | ok f =>
      have : (m :: pre) ++ bad :: post = m :: (pre ++ bad :: post) := rfl
      rw [this]
      show processMsgs (m :: (pre ++ bad :: post)) acc lc = .earlyReturn
      simp only [processMsgs, hdm]
      exact ih _ _ fun m2 hm2 => h1 m2 (List.mem_cons_of_mem _ hm2)

/-- C5: for every ingest call in which no transport messages are available,
or in which every drained message fails to decode, the previously
accumulated CsiBuffer (`self.csi`) is retained completely unchanged. -/
theorem buffer_retained_on_empty_or_all_failed (st : PyState)
    (msgs : List (List ℕ))
    (h : msgs = [] ∨ ∀ m ∈ msgs, (decodeMsg m).isOk = false) :
    (pollSocket st msgs).1.csi = st.csi := by
  rcases h with h | h
  · subst h; rfl
  · cases msgs with
    | nil => rfl
    | cons m rest =>
      have hm := h m (List.mem_cons_self m rest)
      cases hdm : decodeMsg m with
      | ok f => rw [hdm] at hm; simp [Except.isOk, Except.toBool] at hm
      | error e => cases e <;> simp [pollSocket, processMsgs, hdm]

theorem buffer_retained_on_empty_or_all_failed_witness :
    ((msgBadReshape :: [] : List (List ℕ)) = [] ∨
      ∀ m ∈ [msgBadReshape], (decodeMsg m).isOk = false) ∧
    (pollSocket stHeld [msgBadReshape]).1.csi = stHeld.csi :=
  ⟨Or.inr (by decide),
    buffer_retained_on_empty_or_all_failed stHeld [msgBadReshape]
      (Or.inr (by decide))⟩

/-- C6 counterexample: a batch whose first message has an inconsistent
header/payload element count and whose second message is well formed leaves
`self.csi` untouched — the well-formed message is NOT decoded and merged,
refuting the claim that only the single bad message is skipped. -/
theorem good_message_not_merged_after_reshape_mismatch :
    decodeMsg msgBadReshape = Except.error DecodeErr.reshapeError ∧
    (decodeMsg msgGood).isOk = true ∧
    (pollSocket stInit [msgBadReshape, msgGood]).1.csi = none :=
  ⟨rfl, rfl, rfl⟩

/-- C6 (amended): a reshape mismatch executes `return` at line 52, aborting
the whole ingest call: when the messages before the bad one decode
successfully, the call returns normally with the state — in particular the
previous CsiBuffer — completely unchanged, and no message of the batch
(before or after the bad one) is merged. -/
theorem reshape_mismatch_aborts_batch (st : PyState)
    (pre post : List (List ℕ)) (bad : List ℕ)
    (h1 : ∀ m ∈ pre, (decodeMsg m).isOk = true)
    (h2 : decodeMsg bad = Except.error DecodeErr.reshapeError) :
    pollSocket st (pre ++ bad :: post) = (st, Except.ok ()) := by
  unfold pollSocket
  rw [processMsgs_earlyReturn bad post h2 pre [] 0 h1]

theorem reshape_mismatch_aborts_batch_witness :
    (∀ m ∈ [msgGood], (decodeMsg m).isOk = true) ∧
    decodeMsg msgBadReshape = Except.error DecodeErr.reshapeError ∧
    pollSocket stInit ([msgGood] ++ msgBadReshape :: [msgGood]) =
      (stInit, Except.ok ()) :=
  ⟨by decide, rfl,
    reshape_mismatch_aborts_batch stInit [msgGood] [msgGood] msgBadReshape
      (by decide) rfl⟩

/-- C7 (code bug evidence): a message shorter than the 12-byte header makes
the embedded `pollSocket` terminate with an uncaught `struct.error`, and a
message whose payload length is not a multiple of 8 makes it terminate with
an uncaught `ValueError` from `np.frombuffer` — in both cases the ingest
call crashes instead of dropping the single frame as the claim (and spec
section 6) requires. -/
theorem malformed_message_crashes_ingest :
    pollSocket stInit [msgShort] = (stInit, Except.error PyErr.structError) ∧
    pollSocket stInit [msgOddPayload] =
      (stInit, Except.error PyErr.bufferError) ∧
    decodeMsg msgShort = Except.error DecodeErr.structError ∧
    decodeMsg msgOddPayload = Except.error DecodeErr.bufferError :=
  ⟨rfl, rfl, rfl, rfl⟩

/-- C9: an ingest call that does not commit a new CsiBuffer leaves
`self.antennas_per_row` and `self.steering_vectors` unchanged — antenna
reconfiguration and steering rebuild happen only together with a successful
commit. -/
theorem no_commit_preserves_antennas_and_steering (st : PyState)
    (msgs : List (List ℕ)) (h : committed msgs = false) :
    (pollSocket st msgs).1.antennas_per_row = st.antennas_per_row ∧
    (pollSocket st msgs).1.steering = st.steering := by
  rw [pollSocket_state_of_not_committed st msgs h]
  exact ⟨rfl, rfl⟩

theorem no_commit_preserves_antennas_and_steering_witness :
    committed [] = false ∧
    (pollSocket stHeld []).1.antennas_per_row = stHeld.antennas_per_row ∧
    (pollSocket stHeld []).1.steering = stHeld.steering :=
  ⟨rfl, no_commit_preserves_antennas_and_steering stHeld [] rfl⟩

/-- C10: every ingest call that commits a new CsiBuffer stores a buffer
with exactly one antenna-array-group axis and one row axis — shape
`(M, 1, 1, A, S)`. -/
theorem commit_shape_singleton_axes (st : PyState) (msgs : List (List ℕ))
    (h : committed msgs = true) :
    ∃ b : Buf, (pollSocket st msgs).1.csi = some b ∧ b.g = 1 ∧ b.r = 1 := by
  unfold committed at h
  rcases hp : processMsgs msgs [] 0 with e | _ | ⟨fs, lc⟩ <;> rw [hp] at h
  · simp at h
  · simp at h
  · cases fs with
    | nil => simp at h
    | cons f fs =>
      have hcs : sameCS f fs = true := h
      refine ⟨commitBuf f fs, ?_, rfl, rfl⟩
      by_cases hlc : lc = st.antennas_per_row <;>
        simp [pollSocket, hp, hcs, hlc]

theorem commit_shape_singleton_axes_witness :
    committed [msgGood] = true ∧
    ∃ b : Buf, (pollSocket stInit [msgGood]).1.csi = some b ∧
      b.g = 1 ∧ b.r = 1 :=
  ⟨rfl, commit_shape_singleton_axes stInit [msgGood] rfl⟩

/-- C1: the covariance einsum of line 117 computes every entry `(i, j)` as
the sum, over all measurements, groups, rows and subcarriers jointly, of
`csi[d,g,r,i,s] · conj(csi[d,g,r,j,s])`, with no normalization by the
number of observations. -/
theorem covariance_entrywise (M G Rw A S : ℕ)
    (csi : Fin M → Fin G → Fin Rw → Fin A → Fin S → ℂ) (i j : Fin A) :
    covariance M G Rw A S csi i j =
      ∑ x : Fin M × Fin G × Fin Rw × Fin S,
        csi x.1 x.2.1 x.2.2.1 i x.2.2.2 *
          (starRingEnd ℂ) (csi x.1 x.2.1 x.2.2.1 j x.2.2.2) := by
  simp [covariance, Fintype.sum_prod_type]

/-- C2 counterexample: with eigenvalues `2 + 0i` (index 0) and `2 + 1i`
(index 1) — equal real parts, differing imaginary residue — the code's
noise subspace differs from the one described by the claim: numpy's argsort
compares complex values lexicographically (real, then imaginary), so the
reversal discards index 1, while sorting by real part with ties broken by
original index would discard index 0. -/
theorem noise_subspace_differs_from_claimed :
    noiseColumns 2 vEx mEx ≠ specNoiseColumns 2 vEx mEx := by decide

/-- C2 (amended): for an `(A+1)`-by-`(A+1)` eigendecomposition the
subspace separation returns exactly `A` noise-subspace columns, and the
discarded eigenvector is one whose eigenvalue is maximal in numpy's
lexicographic complex order — in particular no eigenvalue has a strictly
larger real part; ties in real part are resolved by imaginary part, not by
original index. -/
theorem noise_subspace_count_and_discarded_max (A : ℕ)
    (val : Fin (A + 1) → ℚ × ℚ)
    (vec : Fin (A + 1) → Fin (A + 1) → ℚ × ℚ) :
    (noiseColumns (A + 1) val vec).length = A ∧
    (∀ i, npLexLe (val i) (val ((eigOrder (A + 1) val).headI))) ∧
    (∀ i, (val i).1 ≤ (val ((eigOrder (A + 1) val).headI)).1) := by
  have hperm := List.perm_insertionSort
    (fun i j => npLexLe (val i) (val j)) (List.finRange (A + 1))
  haveI : IsTotal (Fin (A + 1)) (fun i j => npLexLe (val i) (val j)) :=
    ⟨fun i j => npLexLe_total (val i) (val j)⟩
  haveI : IsTrans (Fin (A + 1)) (fun i j => npLexLe (val i) (val j)) :=
    ⟨fun _ _ _ h1 h2 => npLexLe_trans h1 h2⟩
  have hsorted := List.sorted_insertionSort
    (fun i j => npLexLe (val i) (val j)) (List.finRange (A + 1))
  have hlen : (argsortAsc (A + 1) val).length = A + 1 := by
    rw [argsortAsc, hperm.length_eq, List.length_finRange]
  have hlen2 : (eigOrder (A + 1) val).length = A + 1 := by
    rw [eigOrder, List.length_reverse, hlen]
  have hmax : ∀ i, npLexLe (val i) (val ((eigOrder (A + 1) val).headI)) := by
    have hne : eigOrder (A + 1) val ≠ [] := by
      intro hnil
      rw [hnil] at hlen2
      simp at hlen2
    obtain ⟨h0, t, ht⟩ := List.exists_cons_of_ne_nil hne
    have hrev : (eigOrder (A + 1) val).Pairwise
        (fun a b => npLexLe (val b) (val a)) := by
      rw [eigOrder]
      exact List.pairwise_reverse.mpr hsorted
    intro i
    have hi : i ∈ eigOrder (A + 1) val := by
      rw [eigOrder, List.mem_reverse, argsortAsc, hperm.mem_iff]
      exact List.mem_finRange i
    rw [ht] at hi hrev ⊢
    simp only [List.headI]
    rcases List.mem_cons.mp hi with rfl | hit
    · exact npLexLe_refl _
    · exact (List.pairwise_cons.mp hrev).1 i hit
  refine ⟨?_, hmax, fun i => npLexLe_re_le (hmax i)⟩
  simp [noiseColumns, hlen2]

/-- C3: the pseudo-spectrum of lines 129-130 at every scanned angle `k`:
the linear value is the reciprocal of the Euclidean norm of the
conjugate-transposed noise subspace applied to the `k`-th steering row, and
the log value is `20 · log10` of the linear value. -/
theorem spectrum_reciprocal_norm_and_log (A E : ℕ)
    (Qn : Fin A → Fin E → ℂ) (steering : Fin 1800 → Fin A → ℂ)
    (k : Fin 1800) :
    spatial_spectrum_linear A E Qn steering k =
      1 / ‖(show EuclideanSpace ℂ (Fin E) from
        Matrix.mulVec (Matrix.conjTranspose (Matrix.of Qn)) (steering k))‖ ∧
    spatial_spectrum_log A E Qn steering k =
      20 * Real.logb 10 (spatial_spectrum_linear A E Qn steering k) := by
  refine ⟨?_, rfl⟩
  rw [EuclideanSpace.norm_eq]
  unfold spatial_spectrum_linear
  congr 1

/-- C4: after every refresh tick the axis ceiling equals the maximum of
the new spectrum's largest log value and the previous ceiling (when a
spectrum was computed; a `NoData` tick leaves it alone), so the ceiling is
monotonically non-decreasing across consecutive refreshes for arbitrary
input sequences. -/
theorem axis_ceiling_update_and_monotone (inp : ℕ → Option (Fin 1800 → ℝ))
    (b0 : ℝ) (n : ℕ) :
    (∀ p, inp n = some p →
      axisMaxAfter inp b0 (n + 1) =
        max (npMax1800 p) (axisMaxAfter inp b0 n)) ∧
    axisMaxAfter inp b0 n ≤ axisMaxAfter inp b0 (n + 1) := by
  constructor
  · intro p hp
    simp [axisMaxAfter, hp]
  · cases hp : inp n with
    | none => simp [axisMaxAfter, hp]
    | some p => simp [axisMaxAfter, hp, le_max_right]

theorem axis_ceiling_update_and_monotone_witness :
    axisMaxAfter (fun _ => some fun _ => (0 : ℝ)) 0 (0 + 1) =
      max (npMax1800 fun _ => (0 : ℝ))
        (axisMaxAfter (fun _ => some fun _ => (0 : ℝ)) 0 0) ∧
    axisMaxAfter (fun _ => some fun _ => (0 : ℝ)) 0 0 ≤
      axisMaxAfter (fun _ => some fun _ => (0 : ℝ)) 0 (0 + 1) :=
  ⟨(axis_ceiling_update_and_monotone (fun _ => some fun _ => (0 : ℝ)) 0 0).1
      _ rfl,
    (axis_ceiling_update_and_monotone (fun _ => some fun _ => (0 : ℝ)) 0 0).2⟩

/-- C8 counterexample: at the last grid index the exposed `scanningAngles`
value is `π/2` (radians), not the degree value `90` the claim describes. -/
theorem scanningAngles_not_degrees :
    scanningAnglesProperty lastAngleIdx ≠ claimedAnglesDeg lastAngleIdx := by
  simp only [scanningAnglesProperty, scanning_angles, claimedAnglesDeg,
    lastAngleIdx]
  intro hc
  norm_num at hc
  ring_nf at hc
  linarith [Real.pi_le_four, Real.pi_pos]

/-- C8 (amended): the angular grid exposed once at startup is the fixed
array of scanned angle values expressed in radians — element-wise `π/180`
times the degree values — while the degree values themselves appear only as
the x-coordinates of the per-refresh series points (`np.rad2deg`, line
135). -/
theorem scanningAngles_radians_and_series_degrees (k : Fin 1800) :
    scanningAnglesProperty k = (Real.pi / 180) * claimedAnglesDeg k ∧
    seriesAngleDeg k = claimedAnglesDeg k := by
  constructor
  · simp only [scanningAnglesProperty, scanning_angles, claimedAnglesDeg]
    ring
  · simp only [seriesAngleDeg, scanning_angles, claimedAnglesDeg]
    field_simp
    ring
